import Mathlib

/-!
Shallow embedding of two Kibana fragments:

* `x-pack/plugins/observability_solution/investigate/public/hooks/use_investigation/index.tsx`
  (the investigation hook): the view-projector binding cache (`itemsWithContext`),
  the persistence sync performed by the `investigation$` subscription
  (`attemptToStoreInvestigations`, the upsert-and-reverse policy, the empty-items
  skip, and the `loading`-stripping serialization), and the hook-level `addItem`.
* the `SampleLogsInput` component from the same repository: `parseLogsContent`
  (NDJSON / JSON-array import parsing with a 10-row cap and categorized errors)
  and the relevant part of its `onChangeLogsSample` caller.

JavaScript data is modelled as follows: `JSON.parse` / `JSON.stringify` operate
on a `Json` value type (numbers kept as literal text, since no property here
inspects numeric values and float64 semantics are out of scope); JS objects are
insertion-ordered association lists; exceptions are `Except`; `try/catch` is a
`match` on the `Except` result.
-/

/-- JSON values as produced by the JavaScript `JSON.parse` builtin.
Numeric literals are kept as their source text (`raw`). Object fields keep
insertion order, as JS objects do for string keys. -/
inductive Json where
  | null : Json
  | bool (b : Bool) : Json
  | num (raw : String) : Json
  | str (s : String) : Json
  | arr (elems : List Json) : Json
  | obj (fields : List (String × Json)) : Json

/-- The opening-brace character (written via its code point). -/
def lbrace : Char := Char.ofNat 123

/-- The closing-brace character (written via its code point). -/
def rbrace : Char := Char.ofNat 125

/-- String quoting used by `JSON.stringify`: backslash escapes for the quote,
the backslash and the common control characters. -/
def Json.quote (s : String) : String :=
  "\"" ++ String.mk (s.data.flatMap (fun c =>
    if c = '"' then ['\\', '"']
    else if c = '\\' then ['\\', '\\']
    else if c = '\n' then ['\\', 'n']
    else if c = '\t' then ['\\', 't']
    else if c = '\r' then ['\\', 'r']
    else [c])) ++ "\""

mutual

/-- Compact serialization mirroring `JSON.stringify` with no spacing argument.
Numbers are re-emitted as their stored literal text. -/
def Json.stringify : Json → String
  | .null => "null"
  | .bool true => "true"
  | .bool false => "false"
  | .num raw => raw
  | .str s => Json.quote s
  | .arr elems => "[" ++ Json.stringifyElems elems ++ "]"
  | .obj fields => String.mk [lbrace] ++ Json.stringifyFields fields ++ String.mk [rbrace]

/-- Comma-separated serialization of array elements. -/
def Json.stringifyElems : List Json → String
  | [] => ""
  | [x] => Json.stringify x
  | x :: xs => Json.stringify x ++ "," ++ Json.stringifyElems xs

/-- Comma-separated serialization of object fields. -/
def Json.stringifyFields : List (String × Json) → String
  | [] => ""
  | [(k, v)] => Json.quote k ++ ":" ++ Json.stringify v
  | (k, v) :: kvs => Json.quote k ++ ":" ++ Json.stringify v ++ "," ++ Json.stringifyFields kvs

end

/-- JSON insignificant whitespace (RFC 8259: space, tab, line feed, carriage return). -/
def isJsonWs (c : Char) : Bool :=
  c = ' ' || c = '\t' || c = '\n' || c = '\r'

/-- Drop leading JSON whitespace. -/
def skipWs : List Char → List Char
  | [] => []
  | c :: cs => if isJsonWs c then skipWs cs else c :: cs

/-- Value of a hexadecimal digit, if the character is one. -/
def hexVal (c : Char) : Option Nat :=
  if '0' ≤ c ∧ c ≤ '9' then some (c.toNat - '0'.toNat)
  else if 'a' ≤ c ∧ c ≤ 'f' then some (c.toNat - 'a'.toNat + 10)
  else if 'A' ≤ c ∧ c ≤ 'F' then some (c.toNat - 'A'.toNat + 10)
  else none

/-- Single-character JSON string escapes (everything except `\\u`). -/
def escChar (c : Char) : Option Char :=
  if c = '"' then some '"'
  else if c = '\\' then some '\\'
  else if c = '/' then some '/'
  else if c = 'b' then some (Char.ofNat 8)
  else if c = 'f' then some (Char.ofNat 12)
  else if c = 'n' then some '\n'
  else if c = 'r' then some '\r'
  else if c = 't' then some '\t'
  else none

/-- Parse the body of a JSON string (the opening quote already consumed),
returning the decoded characters and the remaining input. Raw control
characters are invalid, as in `JSON.parse`. Code points from `\\u` escapes are
taken as given (surrogate-pair recombination is immaterial here). -/
def parseStringBody : List Char → Option (List Char × List Char)
  | [] => none
  | '"' :: cs => some ([], cs)
  | '\\' :: 'u' :: h1 :: h2 :: h3 :: h4 :: cs =>
    match hexVal h1, hexVal h2, hexVal h3, hexVal h4 with
    | some a, some b, some c, some d =>
      (parseStringBody cs).map (fun sr => (Char.ofNat (((a * 16 + b) * 16 + c) * 16 + d) :: sr.1, sr.2))
    | _, _, _, _ => none
  | '\\' :: e :: cs =>
    match escChar e with
    | some ec => (parseStringBody cs).map (fun sr => (ec :: sr.1, sr.2))
    | none => none
  | c :: cs =>
    if c.toNat < 32 then none
    else (parseStringBody cs).map (fun sr => (c :: sr.1, sr.2))

/-- Split off the longest leading run of decimal digits. -/
def takeDigits : List Char → List Char × List Char
  | [] => ([], [])
  | c :: cs =>
    if c.isDigit then
      let dr := takeDigits cs
      (c :: dr.1, dr.2)
    else ([], c :: cs)

/-- Optional fraction part of a JSON number: a dot followed by one or more digits. -/
def parseFrac : List Char → Option (List Char × List Char)
  | '.' :: t =>
    match takeDigits t with
    | ([], _) => none
    | (fd, r) => some ('.' :: fd, r)
  | cs => some ([], cs)

/-- Optional exponent part of a JSON number. -/
def parseExp : List Char → Option (List Char × List Char)
  | [] => some ([], [])
  | c :: t =>
    if c = 'e' ∨ c = 'E' then
      let st := match t with
        | '+' :: u => (['+'], u)
        | '-' :: u => (['-'], u)
        | _ => (([] : List Char), t)
      match takeDigits st.2 with
      | ([], _) => none
      | (ed, r) => some (c :: (st.1 ++ ed), r)
    else some ([], c :: t)

/-- Parse a JSON number literal (JSON grammar: optional minus, integer part with
no superfluous leading zero, optional fraction, optional exponent), returning
its literal characters and the remaining input. -/
def parseNumber (cs : List Char) : Option (List Char × List Char) :=
  let sc := match cs with
    | '-' :: t => ((['-'] : List Char), t)
    | _ => (([] : List Char), cs)
  match takeDigits sc.2 with
  | ([], _) => none
  | (d :: ds, r1) =>
    if d = '0' ∧ ds ≠ [] then none
    else
      match parseFrac r1 with
      | none => none
      | some (fp, r2) =>
        match parseExp r2 with
        | none => none
        | some (ep, r3) => some (sc.1 ++ (d :: ds) ++ fp ++ ep, r3)

mutual

/-- Recursive-descent JSON value parser (fuel-bounded), mirroring `JSON.parse`.
Returns the value and the unconsumed input. -/
def parseValue : Nat → List Char → Option (Json × List Char)
  | 0, _ => none
  | fuel + 1, cs =>
    match skipWs cs with
    | [] => none
    | c :: rest =>
      if c = '"' then
        (parseStringBody rest).map (fun sr => (Json.str (String.mk sr.1), sr.2))
      else if c = '[' then
        match skipWs rest with
        | ']' :: r => some (Json.arr [], r)
        | cs2 => (parseElems fuel cs2).map (fun vr => (Json.arr vr.1, vr.2))
      else if c = lbrace then
        match skipWs rest with
        | [] => none
        | c2 :: r =>
          if c2 = rbrace then some (Json.obj [], r)
          else (parseMembers fuel (c2 :: r)).map (fun mr => (Json.obj mr.1, mr.2))
      else if c = 't' then
        match rest with
        | 'r' :: 'u' :: 'e' :: r => some (Json.bool true, r)
        | _ => none
      else if c = 'f' then
        match rest with
        | 'a' :: 'l' :: 's' :: 'e' :: r => some (Json.bool false, r)
        | _ => none
      else if c = 'n' then
        match rest with
        | 'u' :: 'l' :: 'l' :: r => some (Json.null, r)
        | _ => none
      else
        (parseNumber (c :: rest)).map (fun lr => (Json.num (String.mk lr.1), lr.2))

/-- One or more comma-separated array elements followed by a closing bracket. -/
def parseElems : Nat → List Char → Option (List Json × List Char)
  | 0, _ => none
  | fuel + 1, cs =>
    match parseValue fuel cs with
    | none => none
    | some (v, r) =>
      match skipWs r with
      | ',' :: r2 => (parseElems fuel r2).map (fun vr => (v :: vr.1, vr.2))
      | ']' :: r2 => some ([v], r2)
      | _ => none

/-- One or more comma-separated object members followed by a closing brace. -/
def parseMembers : Nat → List Char → Option (List (String × Json) × List Char)
  | 0, _ => none
  | fuel + 1, cs =>
    match skipWs cs with
    | '"' :: r =>
      match parseStringBody r with
      | none => none
      | some (k, r2) =>
        match skipWs r2 with
        | ':' :: r3 =>
          match parseValue fuel r3 with
          | none => none
          | some (v, r4) =>
            match skipWs r4 with
            | ',' :: r5 => (parseMembers fuel r5).map (fun mr => ((String.mk k, v) :: mr.1, mr.2))
            | c5 :: r5 => if c5 = rbrace then some ([(String.mk k, v)], r5) else none
            | [] => none
        | _ => none
    | _ => none

end

/-- `JSON.parse` on a character list: a single JSON value surrounded by optional
whitespace, with the whole input consumed. The fuel `2 * length + 2` dominates
the two fuel decrements spent per nesting level and per element. -/
def Json.parseChars (cs : List Char) : Option Json :=
  match parseValue (2 * cs.length + 2) cs with
  | some (j, rest) => if skipWs rest = [] then some j else none
  | none => none

/-- `JSON.parse` on a string. -/
def Json.parse (s : String) : Option Json :=
  Json.parseChars s.data

/-- lodash `isPlainObject`, restricted to JSON values: true exactly for objects. -/
def isPlainObject : Json → Bool
  | .obj _ => true
  | _ => false

/-- Whether a JSON value is an array (`Array.isArray`). -/
def Json.isArr : Json → Bool
  | .arr _ => true
  | _ => false

/-- JS `content.split('\n')`: split on every newline character; the empty
string yields one empty piece. -/
def splitLinesJS : List Char → List (List Char)
  | [] => [[]]
  | c :: rest =>
    let r := splitLinesJS rest
    if c = '\n' then [] :: r
    else
      match r with
      | line :: more => (c :: line) :: more
      | [] => [[c]]

/-- Whitespace removed by JS `String.prototype.trim` (the ASCII part; the
claims' inputs contain no exotic Unicode whitespace). -/
def isJsTrimWs (c : Char) : Bool :=
  c = ' ' || c = '\t' || c = '\n' || c = '\r' || c = Char.ofNat 11 || c = Char.ofNat 12

/-- JS `line.trim() !== ''`: the line contains a non-whitespace character. -/
def trimmedNonEmpty (line : List Char) : Bool :=
  line.any (fun c => !(isJsTrimWs c))

/-- The NDJSON attempt of `parseLogsContent`: split the file content on
newlines, drop blank lines, `JSON.parse` each remaining line;
fails (throws, in the source) iff some line fails to parse. -/
def ndjsonParse (content : String) : Option (List Json) :=
  ((splitLinesJS content.data).filter trimmedNonEmpty).mapM Json.parseChars

/-- The parsed content computed by `parseLogsContent` before validation:
try NDJSON first, applying the one-line-array special case (a singleton result
whose only element is an array is unwrapped once); on NDJSON failure fall back
to `JSON.parse` of the whole file. `none` is the "cannot parse" outcome. -/
def parsedContentOf (content : String) : Option Json :=
  match ndjsonParse content with
  | some lineVals =>
    match lineVals with
    | [Json.arr inner] => some (Json.arr inner)
    | _ => some (Json.arr lineVals)
  | none => Json.parse content

/-- The distinct error categories of `i18n.LOGS_SAMPLE_ERROR`. -/
inductive LogsSampleError where
  | canNotRead : LogsSampleError
  | canNotParse : LogsSampleError
  | notArray : LogsSampleError
  | empty : LogsSampleError
  | notObject : LogsSampleError
deriving DecidableEq

/-- Result record of `parseLogsContent`; `none` models an absent field. -/
structure ParseResult where
  error : Option LogsSampleError
  isTruncated : Option Bool
  logsSampleParsed : Option (List String)
deriving DecidableEq

/-- `MaxLogsSampleRows` from the source. -/
def MaxLogsSampleRows : Nat := 10

/-- Validation stage of `parseLogsContent` (source lines 322-340): reject
non-arrays and empty arrays, truncate to the row cap (flagging it), reject
arrays containing a non-plain-object element, and stringify each kept row. -/
def afterParse (parsedContent : Json) : ParseResult :=
  match parsedContent with
  | Json.arr elems =>
    if elems.length = 0 then ⟨some .empty, none, none⟩
    else
      let isTruncated := decide (MaxLogsSampleRows < elems.length)
      let kept := if MaxLogsSampleRows < elems.length then elems.take MaxLogsSampleRows else elems
      if kept.any (fun log => !(isPlainObject log)) then ⟨some .notObject, none, none⟩
      else ⟨none, some isTruncated, some (kept.map Json.stringify)⟩
  | _ => ⟨some .notArray, none, none⟩

/-- `parseLogsContent` from `SampleLogsInput`: `undefined` content is the
"cannot read" error; otherwise parse (NDJSON, then whole-file JSON) and
validate. -/
def parseLogsContent (fileContent : Option String) : ParseResult :=
  match fileContent with
  | none => ⟨some .canNotRead, none, none⟩
  | some content =>
    match parsedContentOf content with
    | none => ⟨some .canNotParse, none, none⟩
    | some parsedContent => afterParse parsedContent

/-- Observable outcome of the `reader.onload` handler in `onChangeLogsSample`:
the field-level error, whether the truncation toast fires, and the
`logsSampleParsed` value stored into the integration settings. -/
structure OnLoadEffect where
  sampleFileError : Option LogsSampleError
  toastShown : Bool
  storedSample : Option (List String)
deriving DecidableEq

/-- The `reader.onload` handler of `onChangeLogsSample` (source lines 362-379),
restricted to its observable effects: on error the settings sample is cleared
and no toast fires; otherwise the toast fires iff truncation was flagged and
the parsed sample is stored. -/
def onChangeLogsSampleLoad (fileContent : Option String) : OnLoadEffect :=
  let r := parseLogsContent fileContent
  match r.error with
  | some e => ⟨some e, false, none⟩
  | none => ⟨none, r.isTruncated.getD false, r.logsSampleParsed⟩

/-! ## Persistence sync (`investigation$` subscription in `useInvestigationWithoutContext`) -/

/-- An investigation as seen by the persistence-sync subscription: its `id`,
its `items` (each a JS object given as an insertion-ordered field list, in
memory possibly carrying the transient `loading` field), and `rest`, the
remaining spread fields (title, parameters, notes, ...), which serialization
copies unchanged. -/
structure SyncInvestigation where
  id : String
  items : List (List (String × Json))
  rest : List (String × Json)

/-- JS `const \x7b loading, ...rest \x7d = item`: remove the `loading` field. -/
def eraseLoading (item : List (String × Json)) : List (String × Json)  :=
  item.filter (fun kv => kv.1 != "loading")

/-- `toSerialize` (source lines 198-204): the investigation with `loading`
stripped from every item. -/
def toSerialize (inv : SyncInvestigation) : SyncInvestigation :=
  { inv with items := inv.items.map eraseLoading }

/-- The next stored list computed by the subscription callback (source lines
206-222): if no stored entry has the current id, append the serialized form and
reverse; otherwise replace every entry with that id in place and reverse. -/
def computeNextStored (stored : List SyncInvestigation) (toSer : SyncInvestigation) :
    List SyncInvestigation :=
  let hasStoredCurrentInvestigation := (stored.find? (fun s => s.id == toSer.id)).isSome
  if !hasStoredCurrentInvestigation then
    (stored ++ [toSer]).reverse
  else
    (stored.map (fun s => if s.id == toSer.id then toSer else s)).reverse

/-- Outcome of one publication reaching the persistence sync: no write at all,
a successful write of the given list, or a caught-and-reported storage error. -/
inductive SyncOutcome (ε : Type) where
  | noWrite : SyncOutcome ε
  | wrote (next : List SyncInvestigation) : SyncOutcome ε
  | reported (e : ε) : SyncOutcome ε

/-- `attemptToStoreInvestigations` (source lines 178-189): call the storage
setter inside `try/catch`; a throw is caught and routed to
`notifications.showErrorDialog`, never rethrown. -/
def attemptToStoreInvestigations {ε : Type}
    (setInvestigations : List SyncInvestigation → Except ε Unit)
    (next : List SyncInvestigation) : SyncOutcome ε :=
  match setInvestigations next with
  | .ok _ => .wrote next
  | .error e => .reported e

/-- The whole `investigation$` subscription callback (source lines 191-225):
skip entirely when the snapshot has no items, otherwise upsert the serialized
snapshot into the stored list and attempt the write. -/
def syncStep {ε : Type} (setInvestigations : List SyncInvestigation → Except ε Unit)
    (stored : List SyncInvestigation) (investigationFromStore : SyncInvestigation) :
    SyncOutcome ε :=
  if investigationFromStore.items.length = 0 then .noWrite
  else
    attemptToStoreInvestigations setInvestigations
      (computeNextStored stored (toSerialize investigationFromStore))

/-! ## View projector (`itemsWithContext`) -/

/-- An investigation item as the projector sees it: its id and widget type. -/
structure ProjItem where
  id : String
  type : String
deriving DecidableEq

/-- A cached render binding. The component closure built on a cache miss is
abstracted as the captured item id plus a construction counter (`stamp`), so
that reuse of a cached binding is distinguishable from reconstruction. -/
structure Binding where
  boundId : String
  stamp : Nat
deriving DecidableEq

/-- JS `delete cache[k]` on the binding cache. -/
def eraseKey (k : String) (cache : List (String × Binding)) : List (String × Binding) :=
  cache.filter (fun kv => kv.1 != k)

/-- One `itemsWithContext` recomputation (source lines 101-151) acting on the
binding cache `widgetComponentsById.current`. For each item in order, reuse the
cached binding for its id or construct and cache a new one. The eviction pass
is embedded as the source has it: `unusedComponentIds` is
`Object.keys(widgetComponentsById)` — the keys of the `useRef` wrapper object
itself, i.e. the single literal key `"current"`, not the cached item ids —
lodash `pull` then removes each present item id from that list, and the final
loop deletes the surviving keys from the cache. Returns the new cache and the
next construction counter. -/
def projectStep (cache0 : List (String × Binding)) (fresh0 : Nat) (items : List ProjItem) :
    List (String × Binding) × Nat :=
  let unused0 : List String := ["current"]
  let step := fun (acc : List (String × Binding) × Nat × List String) (item : ProjItem) =>
    let cache := acc.1
    let fresh := acc.2.1
    let unused := acc.2.2
    let cf :=
      match cache.lookup item.id with
      | some _ => (cache, fresh)
      | none => (cache ++ [(item.id, (⟨item.id, fresh⟩ : Binding))], fresh + 1)
    (cf.1, cf.2, unused.filter (fun uid => uid != item.id))
  let final := items.foldl step (cache0, fresh0, unused0)
  (final.2.2.foldl (fun c uid => eraseKey uid c) final.1, final.2.1)

/-! ## Hook-level `addItem` -/

/-- Outcome of the hook-level `addItem`: the store's new snapshot, or a store
error caught and shown via `notifications.showErrorDialog`. -/
inductive HookAddItemOutcome (ε σ : Type) where
  | ok (snapshot : σ) : HookAddItemOutcome ε σ
  | reported (e : ε) : HookAddItemOutcome ε σ

/-- The hook-level `addItem` (source lines 79-91): generate an id (`v4()`,
modelled as the `generatedId` argument), delegate to the store's `addItem`
inside `try/catch`, and report any store error instead of rethrowing. The
store is abstracted as a function of the id and the creation payload `ω`. -/
def hookAddItem {ε σ ω : Type} (storeAddItem : String → ω → Except ε σ)
    (generatedId : String) (widget : ω) : HookAddItemOutcome ε σ :=
  match storeAddItem generatedId widget with
  | .ok s => .ok s
  | .error e => .reported e

/-! ## Helper lemmas -/

/-- Looking up `loading` after stripping it finds nothing. -/
theorem lookup_eraseLoading (item : List (String × Json)) :
    (eraseLoading item).lookup "loading" = none := by
  induction item with
  | nil => rfl
  | cons kv t ih =>
    rcases kv with ⟨k, v⟩
    by_cases h : k = "loading"
    · rw [eraseLoading, List.filter_cons, if_neg (by simp [h])]
      exact ih
    · rw [eraseLoading, List.filter_cons, if_pos (by simp [h]), List.lookup_cons]
      have hk : ("loading" == k) = false := by simp [Ne.symm h]
      rw [hk]
      exact ih

/-- Every validation outcome is either an error record (no sample, no
truncation flag) or a success record (truncation flag and sample present). -/
theorem afterParse_shape (j : Json) :
    ((afterParse j).error.isSome = true ∧ (afterParse j).isTruncated = none
      ∧ (afterParse j).logsSampleParsed = none)
    ∨ ((afterParse j).error = none ∧ (∃ b, (afterParse j).isTruncated = some b)
      ∧ ∃ entries, (afterParse j).logsSampleParsed = some entries) := by
  cases j with
  | arr elems =>
    by_cases h0 : elems.length = 0
    · left; simp [afterParse, h0]
    · by_cases hb : ((if MaxLogsSampleRows < elems.length then elems.take MaxLogsSampleRows
          else elems).any (fun log => !(isPlainObject log))) = true
      · left; simp [afterParse, h0, hb]
      · right; simp [afterParse, h0, hb]
  | null => left; exact ⟨rfl, rfl, rfl⟩
  | bool b => left; exact ⟨rfl, rfl, rfl⟩
  | num raw => left; exact ⟨rfl, rfl, rfl⟩
  | str s => left; exact ⟨rfl, rfl, rfl⟩
  | obj fields => left; exact ⟨rfl, rfl, rfl⟩

/-- `parseLogsContent` always returns either an error record or a success
record, never anything else. -/
theorem parseLogsContent_shape (fileContent : Option String) :
    ((parseLogsContent fileContent).error.isSome = true
      ∧ (parseLogsContent fileContent).isTruncated = none
      ∧ (parseLogsContent fileContent).logsSampleParsed = none)
    ∨ ((parseLogsContent fileContent).error = none
      ∧ (∃ b, (parseLogsContent fileContent).isTruncated = some b)
      ∧ ∃ entries, (parseLogsContent fileContent).logsSampleParsed = some entries) := by
  cases fileContent with
  | none => left; exact ⟨rfl, rfl, rfl⟩
  | some content =>
    cases h : parsedContentOf content with
    | none => left; simp [parseLogsContent, h]
    | some j =>
      have hj := afterParse_shape j
      simpa [parseLogsContent, h] using hj

/-- Validation succeeds whenever the first `MaxLogsSampleRows` elements of a
nonempty parsed array are plain objects, truncating and flagging as needed. -/
theorem afterParse_success (elems : List Json) (hne : elems.length ≠ 0)
    (hall : (elems.take MaxLogsSampleRows).all isPlainObject = true) :
    afterParse (Json.arr elems)
      = ⟨none, some (decide (MaxLogsSampleRows < elems.length)),
         some ((elems.take MaxLogsSampleRows).map Json.stringify)⟩ := by
  by_cases hlt : MaxLogsSampleRows < elems.length
  · have hany : (elems.take MaxLogsSampleRows).any (fun log => !(isPlainObject log)) = false := by
      rw [List.any_eq_false]
      intro x hx
      have hx' := List.all_eq_true.mp hall x hx
      simp [hx']
    simp [afterParse, hne, hlt, hany]
  · have htake : elems.take MaxLogsSampleRows = elems :=
      List.take_of_length_le (Nat.le_of_not_lt hlt)
    rw [htake] at hall
    have hany : elems.any (fun log => !(isPlainObject log)) = false := by
      rw [List.any_eq_false]
      intro x hx
      have hx' := List.all_eq_true.mp hall x hx
      simp [hx']
    simp [afterParse, hne, hlt, hany, htake]

/-! ## Concrete investigations used by witnesses and counterexamples -/

/-- A stored (already serialized) investigation with id `a`. -/
def invStoredA : SyncInvestigation := ⟨"a", [[("k", Json.num "1")]], []⟩

/-- A stored (already serialized) investigation with id `b`. -/
def invStoredB : SyncInvestigation := ⟨"b", [[("k", Json.num "2")]], []⟩

/-- An in-memory snapshot of investigation `a` after a change, one item still
carrying the transient `loading` flag. -/
def invUpdatedA : SyncInvestigation := ⟨"a", [[("k", Json.num "3"), ("loading", Json.bool false)]], []⟩

/-- The serialized form of `invUpdatedA`. -/
def serUpdatedA : SyncInvestigation := ⟨"a", [[("k", Json.num "3")]], []⟩

/-! ## Claims -/

/-- C1: the claim says that after each snapshot the projector's cached binding
keys equal exactly the snapshot's item-id set, stale ids being evicted. The
code computes `unusedComponentIds` from the `useRef` wrapper object instead of
the cache it holds, so eviction never happens: starting from a cache holding a
binding for the departed id `a` and a snapshot whose only item is `b`, the
cache ends with keys `[a, b]`, not `[b]` — the binding for `a` survives. -/
theorem C1_stale_binding_retained :
    projectStep [("a", ⟨"a", 0⟩)] 1 [⟨"b", "chart"⟩]
      = ([("a", ⟨"a", 0⟩), ("b", ⟨"b", 1⟩)], 2)
    ∧ (projectStep [("a", ⟨"a", 0⟩)] 1 [⟨"b", "chart"⟩]).1.map Prod.fst
      ≠ ([⟨"b", "chart"⟩] : List ProjItem).map ProjItem.id := by
  decide

/-- C3 counterexample: the claim says input `[[ {a:1} ]]` (one-line array
containing one array) is unwrapped once and yields a successful result with one
entry; the code instead unwraps once to an array whose single element is still
an array, which fails the plain-object check: the result is the "not object"
error and no sample. -/
theorem C3_nested_array_not_object :
    parseLogsContent (some "[[\x7b\"a\":1\x7d]]") = ⟨some .notObject, none, none⟩
    ∧ (parseLogsContent (some "[[\x7b\"a\":1\x7d]]")).logsSampleParsed = none := by
  decide

/-- C3 amended: NDJSON input `\x7b"a":1\x7d\n\x7b"b":2\x7d` yields two entries;
the one-line array `[\x7b"a":1\x7d,\x7b"b":2\x7d]` yields two entries; the
one-line array containing one object `[\x7b"a":1\x7d]` is unwrapped once and
yields one entry; the one-line array containing one array `[[\x7b"a":1\x7d]]`
is unwrapped once to an array whose element is an array and yields the
"not object" error. -/
theorem C3_import_parsing_amended :
    parseLogsContent (some "\x7b\"a\":1\x7d\n\x7b\"b\":2\x7d")
      = ⟨none, some false, some ["\x7b\"a\":1\x7d", "\x7b\"b\":2\x7d"]⟩
    ∧ parseLogsContent (some "[\x7b\"a\":1\x7d,\x7b\"b\":2\x7d]")
      = ⟨none, some false, some ["\x7b\"a\":1\x7d", "\x7b\"b\":2\x7d"]⟩
    ∧ parseLogsContent (some "[\x7b\"a\":1\x7d]")
      = ⟨none, some false, some ["\x7b\"a\":1\x7d"]⟩
    ∧ parseLogsContent (some "[[\x7b\"a\":1\x7d]]") = ⟨some .notObject, none, none⟩ := by
  decide

/-- C5: a snapshot with no items performs no write at all — the subscription
callback returns before touching storage, leaving the stored list unchanged. -/
theorem C5_empty_items_skip_sync :
    ∀ (ε : Type) (setInvestigations : List SyncInvestigation → Except ε Unit)
      (stored : List SyncInvestigation) (inv : SyncInvestigation),
      inv.items = [] →
        syncStep setInvestigations stored inv = SyncOutcome.noWrite := by
  intro ε setInvestigations stored inv h
  simp [syncStep, h]

/-- Witness for C5 at a concrete empty snapshot. -/
theorem C5_empty_items_skip_sync_witness :
    (SyncInvestigation.mk "fresh" [] []).items = []
    ∧ syncStep (fun _ => (Except.ok () : Except String Unit)) [invStoredA]
        (SyncInvestigation.mk "fresh" [] []) = SyncOutcome.noWrite :=
  ⟨rfl, C5_empty_items_skip_sync String (fun _ => Except.ok ()) [invStoredA]
    (SyncInvestigation.mk "fresh" [] []) rfl⟩

/-- C6: every item of the serialized form of a snapshot has no `loading`
field: `toSerialize` strips the transient flag from every item before the
write. -/
theorem C6_serialize_strips_loading :
    ∀ (inv : SyncInvestigation), ∀ item ∈ (toSerialize inv).items,
      item.lookup "loading" = none := by
  intro inv item hmem
  simp only [toSerialize, List.mem_map] at hmem
  obtain ⟨src, _, rfl⟩ := hmem
  exact lookup_eraseLoading src

/-- Witness for C6 at a snapshot whose item carries a `loading` field. -/
theorem C6_serialize_strips_loading_witness :
    [("k", Json.num "3")] ∈ (toSerialize invUpdatedA).items
    ∧ List.lookup "loading" [("k", Json.num "3")] = none :=
  ⟨show [("k", Json.num "3")] ∈ [[("k", Json.num "3")]] from List.mem_singleton.mpr rfl,
   C6_serialize_strips_loading invUpdatedA [("k", Json.num "3")]
     (show [("k", Json.num "3")] ∈ [[("k", Json.num "3")]] from List.mem_singleton.mpr rfl)⟩

/-- C7: a storage failure is caught at the sync boundary and reported through
the notification channel; the subscription callback's outcome is a report, not
a propagated exception — and a write attempt either stores the computed list or
reports, nothing else. -/
theorem C7_storage_failure_reported_not_thrown :
    (∀ (ε : Type) (setInvestigations : List SyncInvestigation → Except ε Unit)
       (next : List SyncInvestigation) (e : ε),
       setInvestigations next = Except.error e →
         attemptToStoreInvestigations setInvestigations next = SyncOutcome.reported e)
    ∧ (∀ (ε : Type) (setInvestigations : List SyncInvestigation → Except ε Unit)
       (next : List SyncInvestigation),
       attemptToStoreInvestigations setInvestigations next = SyncOutcome.wrote next
       ∨ ∃ e, attemptToStoreInvestigations setInvestigations next = SyncOutcome.reported e)
    ∧ (∀ (ε : Type) (setInvestigations : List SyncInvestigation → Except ε Unit)
       (stored : List SyncInvestigation) (inv : SyncInvestigation) (e : ε),
       inv.items.length ≠ 0 →
       setInvestigations (computeNextStored stored (toSerialize inv)) = Except.error e →
         syncStep setInvestigations stored inv = SyncOutcome.reported e) := by
  refine ⟨?_, ?_, ?_⟩
  · intro ε setInvestigations next e h
    simp [attemptToStoreInvestigations, h]
  · intro ε setInvestigations next
    cases h : setInvestigations next with
    | ok u => left; simp [attemptToStoreInvestigations, h]
    | error e => right; exact ⟨e, by simp [attemptToStoreInvestigations, h]⟩
  · intro ε setInvestigations stored inv e hne h
    simp [syncStep, hne, attemptToStoreInvestigations, h]

/-- Witness for C7 at a concrete always-failing storage setter. -/
theorem C7_storage_failure_reported_not_thrown_witness :
    ((fun _ => (Except.error "quota" : Except String Unit)) ([] : List SyncInvestigation)
      = Except.error "quota")
    ∧ attemptToStoreInvestigations (fun _ => (Except.error "quota" : Except String Unit)) []
      = SyncOutcome.reported "quota"
    ∧ invUpdatedA.items.length ≠ 0
    ∧ syncStep (fun _ => (Except.error "quota" : Except String Unit)) [] invUpdatedA
      = SyncOutcome.reported "quota" :=
  ⟨rfl,
   C7_storage_failure_reported_not_thrown.1 String _ [] "quota" rfl,
   by decide,
   C7_storage_failure_reported_not_thrown.2.2 String _ [] invUpdatedA "quota" (by decide) rfl⟩

/-- C8: the hook-level `addItem` never rejects: the id handed to the store is
exactly the freshly generated UUID, a store error is caught and reported via
the error dialog, and every call's outcome is either the new snapshot or a
reported error. -/
theorem C8_hook_addItem_never_rejects :
    (∀ (ε σ ω : Type) (storeAddItem : String → ω → Except ε σ)
       (generatedId : String) (widget : ω) (e : ε),
       storeAddItem generatedId widget = Except.error e →
         hookAddItem storeAddItem generatedId widget = HookAddItemOutcome.reported e)
    ∧ (∀ (ε σ ω : Type) (storeAddItem : String → ω → Except ε σ)
       (generatedId : String) (widget : ω),
       (∃ s, hookAddItem storeAddItem generatedId widget = HookAddItemOutcome.ok s)
       ∨ ∃ e, hookAddItem storeAddItem generatedId widget = HookAddItemOutcome.reported e)
    ∧ (∀ (ω : Type) (generatedId : String) (widget : ω),
       hookAddItem (fun id _ => (Except.ok id : Except String String)) generatedId widget
         = HookAddItemOutcome.ok generatedId) := by
  refine ⟨?_, ?_, ?_⟩
  · intro ε σ ω storeAddItem generatedId widget e h
    simp [hookAddItem, h]
  · intro ε σ ω storeAddItem generatedId widget
    cases h : storeAddItem generatedId widget with
    | ok s => left; exact ⟨s, by simp [hookAddItem, h]⟩
    | error e => right; exact ⟨e, by simp [hookAddItem, h]⟩
  · intro ω generatedId widget
    rfl

/-- Witness for C8 at a concrete failing store and a concrete id-echoing store. -/
theorem C8_hook_addItem_never_rejects_witness :
    ((fun (_ : String) (_ : Nat) => (Except.error "boom" : Except String Unit)) "id-1" 7
      = Except.error "boom")
    ∧ hookAddItem (fun (_ : String) (_ : Nat) => (Except.error "boom" : Except String Unit))
        "id-1" 7 = HookAddItemOutcome.reported "boom"
    ∧ hookAddItem (fun id (_ : Nat) => (Except.ok id : Except String String)) "id-2" 7
      = HookAddItemOutcome.ok "id-2" :=
  ⟨rfl,
   C8_hook_addItem_never_rejects.1 String Unit Nat _ "id-1" 7 "boom" rfl,
   C8_hook_addItem_never_rejects.2.2 Nat "id-2" 7⟩

/-- C2 counterexample: the claim says the stored list resulting from a
persistence sync always has the most recently changed investigation first.
With stored list `[a, b]` and a change to investigation `a`, the replace
branch replaces in place and reverses, producing `[b, a]`: the entry first in
the stored list is `b`, not the just-changed `a`. -/
theorem C2_replace_reverse_not_newest_first :
    syncStep (fun _ => (Except.ok () : Except String Unit)) [invStoredA, invStoredB] invUpdatedA
      = SyncOutcome.wrote [invStoredB, serUpdatedA]
    ∧ [invStoredB, serUpdatedA].head? = some invStoredB
    ∧ invStoredB.id ≠ serUpdatedA.id := by
  refine ⟨rfl, rfl, ?_⟩
  intro h
  simp [invStoredB, serUpdatedA] at h

/-- C2 amended: the sync replaces in place when the id is already stored and
appends otherwise, reversing the list after either operation. In the append
case the new entry does end up first; in the replace case the updated entry
ends at the mirror position of its original index (so it is first only when it
was last), not in general first. -/
theorem C2_upsert_reverse_amended :
    (∀ (stored : List SyncInvestigation) (t : SyncInvestigation),
       (stored.find? (fun s => s.id == t.id)).isSome = false →
         computeNextStored stored t = (stored ++ [t]).reverse
         ∧ (computeNextStored stored t).head? = some t)
    ∧ (∀ (stored : List SyncInvestigation) (t : SyncInvestigation),
       (stored.find? (fun s => s.id == t.id)).isSome = true →
         computeNextStored stored t
           = (stored.map (fun s => if s.id == t.id then t else s)).reverse)
    ∧ (∀ (stored : List SyncInvestigation) (t : SyncInvestigation) (i : Nat)
       (h : i < stored.length),
       (stored.get ⟨i, h⟩).id = t.id →
         (computeNextStored stored t)[stored.length - 1 - i]? = some t) := by
  refine ⟨?_, ?_, ?_⟩
  · intro stored t h
    constructor
    · simp [computeNextStored, h]
    · simp [computeNextStored, h, List.reverse_append]
  · intro stored t h
    simp [computeNextStored, h]
  · intro stored t i h hid
    have hfind : (stored.find? (fun s => s.id == t.id)).isSome = true :=
      List.find?_isSome.mpr ⟨stored.get ⟨i, h⟩, List.get_mem stored i h, beq_iff_eq.mpr hid⟩
    have hrw : computeNextStored stored t
        = (stored.map (fun s => if s.id == t.id then t else s)).reverse := by
      simp [computeNextStored, hfind]
    rw [hrw]
    have hi1 : stored.length - 1 - i < (stored.map (fun s => if s.id == t.id then t else s)).length := by
      rw [List.length_map]
      omega
    rw [List.getElem?_reverse hi1, List.length_map]
    have hsub : stored.length - 1 - (stored.length - 1 - i) = i := by omega
    rw [hsub, List.getElem?_map, List.getElem?_eq_getElem h]
    simp only [Option.map_some']
    rw [List.get_eq_getElem] at hid
    simp [hid]

/-- Witness for C2 amended: appending puts the new entry first; replacing
investigation `a`, stored at index 0 of a two-entry list, puts its update at
index 1 of the written list. -/
theorem C2_upsert_reverse_amended_witness :
    (([invStoredB].find? (fun s => s.id == serUpdatedA.id)).isSome = false
      ∧ computeNextStored [invStoredB] serUpdatedA = ([invStoredB] ++ [serUpdatedA]).reverse
      ∧ (computeNextStored [invStoredB] serUpdatedA).head? = some serUpdatedA)
    ∧ (([invStoredA, invStoredB].get (0 : Fin 2)).id = serUpdatedA.id
      ∧ (computeNextStored [invStoredA, invStoredB] serUpdatedA)[1]? = some serUpdatedA) :=
  ⟨⟨by decide,
    (C2_upsert_reverse_amended.1 [invStoredB] serUpdatedA (by decide)).1,
    (C2_upsert_reverse_amended.1 [invStoredB] serUpdatedA (by decide)).2⟩,
   ⟨rfl,
    C2_upsert_reverse_amended.2.2 [invStoredA, invStoredB] serUpdatedA 0 (by decide) rfl⟩⟩

/-- C4: a parsed array longer than the 10-row cap whose rows are objects is
truncated to exactly the first 10 rows with the truncation flag set; `[1,2,3]`
yields the "not object" error; any non-array parse result yields the
"not array" error; `[]` yields the "empty" error; and whenever truncation is
flagged, the load handler fires the info toast. -/
theorem C4_truncation_and_error_categories :
    (∀ elems : List Json, MaxLogsSampleRows < elems.length → elems.all isPlainObject = true →
        afterParse (Json.arr elems)
          = ⟨none, some true, some ((elems.take MaxLogsSampleRows).map Json.stringify)⟩)
    ∧ parseLogsContent (some "[1,2,3]") = ⟨some .notObject, none, none⟩
    ∧ (∀ j : Json, j.isArr = false → afterParse j = ⟨some .notArray, none, none⟩)
    ∧ parseLogsContent (some "[]") = ⟨some .empty, none, none⟩
    ∧ (∀ fileContent, (parseLogsContent fileContent).isTruncated = some true →
        (onChangeLogsSampleLoad fileContent).toastShown = true) := by
  refine ⟨?_, by decide, ?_, by decide, ?_⟩
  · intro elems hlt hall
    have hne : elems.length ≠ 0 := by omega
    have htk : (elems.take MaxLogsSampleRows).all isPlainObject = true := by
      rw [List.all_eq_true]
      intro x hx
      exact List.all_eq_true.mp hall x (List.mem_of_mem_take hx)
    rw [afterParse_success elems hne htk]
    simp [hlt]
  · intro j hj
    cases j with
    | arr elems => simp [Json.isArr] at hj
    | null => rfl
    | bool b => rfl
    | num raw => rfl
    | str s => rfl
    | obj fields => rfl
  · intro fileContent ht
    rcases parseLogsContent_shape fileContent with ⟨_, hti, _⟩ | ⟨he, _, _⟩
    · rw [ht] at hti
      cases hti
    · simp [onChangeLogsSampleLoad, he, ht]

/-- Eleven NDJSON rows of empty objects: one more than the cap. -/
def elevenRowNdjson : String :=
  "\x7b\x7d\n\x7b\x7d\n\x7b\x7d\n\x7b\x7d\n\x7b\x7d\n\x7b\x7d\n\x7b\x7d\n\x7b\x7d\n\x7b\x7d\n\x7b\x7d\n\x7b\x7d"

/-- Witness for C4 at eleven object rows (truncation and toast) and at a
non-array value. -/
theorem C4_truncation_and_error_categories_witness :
    (MaxLogsSampleRows < (List.replicate 11 (Json.obj [])).length
      ∧ (List.replicate 11 (Json.obj [])).all isPlainObject = true
      ∧ afterParse (Json.arr (List.replicate 11 (Json.obj [])))
          = ⟨none, some true,
             some (((List.replicate 11 (Json.obj [])).take MaxLogsSampleRows).map Json.stringify)⟩)
    ∧ (Json.isArr Json.null = false ∧ afterParse Json.null = ⟨some .notArray, none, none⟩)
    ∧ ((parseLogsContent (some elevenRowNdjson)).isTruncated = some true
      ∧ (onChangeLogsSampleLoad (some elevenRowNdjson)).toastShown = true) :=
  ⟨⟨by decide, by decide,
    C4_truncation_and_error_categories.1 (List.replicate 11 (Json.obj [])) (by decide) (by decide)⟩,
   ⟨rfl, C4_truncation_and_error_categories.2.2.1 Json.null rfl⟩,
   ⟨by decide,
    C4_truncation_and_error_categories.2.2.2.2 (some elevenRowNdjson) (by decide)⟩⟩

/-- C9: `parseLogsContent` is total and categorical on its whole input domain:
for every input (absent content included) it returns either an error record
(no sample, no truncation flag) or a success record (truncation flag and
sample both present); no input escapes these two shapes. -/
theorem C9_parseLogsContent_total :
    ∀ (fileContent : Option String),
      ((parseLogsContent fileContent).error.isSome = true
        ∧ (parseLogsContent fileContent).isTruncated = none
        ∧ (parseLogsContent fileContent).logsSampleParsed = none)
      ∨ ((parseLogsContent fileContent).error = none
        ∧ (∃ b, (parseLogsContent fileContent).isTruncated = some b)
        ∧ ∃ entries, (parseLogsContent fileContent).logsSampleParsed = some entries) := by
  intro fileContent
  exact parseLogsContent_shape fileContent

/-- C10: truncation happens before the per-element plain-object validation:
whenever the parsed content is a nonempty array whose first 10 elements are
plain objects, the parse succeeds — elements past the cap are never
inspected. -/
theorem C10_truncate_before_validation :
    ∀ (content : String) (elems : List Json),
      parsedContentOf content = some (Json.arr elems) →
      elems.length ≠ 0 →
      (elems.take MaxLogsSampleRows).all isPlainObject = true →
        parseLogsContent (some content)
          = ⟨none, some (decide (MaxLogsSampleRows < elems.length)),
             some ((elems.take MaxLogsSampleRows).map Json.stringify)⟩ := by
  intro content elems hparse hne hall
  simp only [parseLogsContent, hparse]
  exact afterParse_success elems hne hall

/-- Ten NDJSON rows of empty objects followed by a row that is a bare number. -/
def tenObjectsOneNumber : String :=
  "\x7b\x7d\n\x7b\x7d\n\x7b\x7d\n\x7b\x7d\n\x7b\x7d\n\x7b\x7d\n\x7b\x7d\n\x7b\x7d\n\x7b\x7d\n\x7b\x7d\n5"

/-- Witness for C10: eleven parsed rows whose eleventh is not an object still
parse successfully, truncated to the first ten. -/
theorem C10_truncate_before_validation_witness :
    (parsedContentOf tenObjectsOneNumber
        = some (Json.arr (List.replicate 10 (Json.obj []) ++ [Json.num "5"]))
      ∧ (List.replicate 10 (Json.obj ([] : List (String × Json))) ++ [Json.num "5"]).length ≠ 0
      ∧ ((List.replicate 10 (Json.obj []) ++ [Json.num "5"]).take MaxLogsSampleRows).all
          isPlainObject = true)
    ∧ parseLogsContent (some tenObjectsOneNumber)
        = ⟨none,
           some (decide (MaxLogsSampleRows
             < (List.replicate 10 (Json.obj ([] : List (String × Json))) ++ [Json.num "5"]).length)),
           some (((List.replicate 10 (Json.obj []) ++ [Json.num "5"]).take MaxLogsSampleRows).map
             Json.stringify)⟩ :=
  ⟨⟨rfl, by decide, by decide⟩,
   C10_truncate_before_validation tenObjectsOneNumber
     (List.replicate 10 (Json.obj []) ++ [Json.num "5"]) rfl (by decide) (by decide)⟩
